import Mathlib

/-!
Verification development for the pondfinder backend core: the bounded TTL
caches, the geospatial property resolver (SmartyService), the land-use
classifier, and the background job engine (jobService).

Each definition is a shallow embedding of the corresponding TypeScript
function; timestamps are naturals (milliseconds), JavaScript string
truthiness is modelled as inequality with the empty string, and vendor
HTTP calls are abstracted as explicit environment parameters recording
their outcomes.
-/

namespace PondFinder

/-! ## Bounded TTL caches

Model of the two in-memory caches. A JavaScript `Map` is modelled as a
list of entries in insertion order: `Map.set` of an existing key replaces
the value in place (keeping the insertion position), `Map.set` of a fresh
key appends, and `keys().next().value` is the head of the list. -/

structure CacheEntry (α : Type) where
  key : String
  data : α
  timestamp : Nat
deriving DecidableEq, Repr

/-- `Map.get`: the entry for a key, if present. -/
def mapGet {α : Type} (m : List (CacheEntry α)) (k : String) : Option (CacheEntry α) :=
  m.find? (fun e => e.key = k)

/-- `Map.set`: replace in place when the key is present, append otherwise. -/
def mapSet {α : Type} (m : List (CacheEntry α)) (k : String) (d : α) (t : Nat) :
    List (CacheEntry α) :=
  if m.any (fun e => e.key = k) then
    m.map (fun e => if e.key = k then ⟨k, d, t⟩ else e)
  else
    m ++ [⟨k, d, t⟩]

/-- Overpass response cache TTL: 5 minutes in milliseconds (part_004). -/
def CACHE_TTL : Nat := 5 * 60 * 1000

/-- Overpass response cache capacity (part_004). -/
def MAX_CACHE_SIZE : Nat := 50

/-- `getCachedResult` (part_004): return the data only when the entry exists
and `now - timestamp < CACHE_TTL`; otherwise miss (`null`). -/
def getCachedResult {α : Type} (m : List (CacheEntry α)) (k : String) (now : Nat) :
    Option α :=
  match mapGet m k with
  | some e => if now - e.timestamp < CACHE_TTL then some e.data else none
  | none => none

/-- `setCachedResult` (part_004): when the cache has reached
`MAX_CACHE_SIZE`, delete the oldest entry (head of insertion order) first,
then `Map.set` the new entry. -/
def setCachedResult {α : Type} (m : List (CacheEntry α)) (k : String) (d : α) (now : Nat) :
    List (CacheEntry α) :=
  let m1 := if m.length ≥ MAX_CACHE_SIZE then m.tail else m
  mapSet m1 k d now

/-- Census cache TTL: 30 minutes in milliseconds (censusService.ts). -/
def CENSUS_CACHE_TTL : Nat := 30 * 60 * 1000

/-- Census cache capacity bound used by the `size > 20` eviction check. -/
def CENSUS_CACHE_CAP : Nat := 20

/-- The cache-read half of `getCensusIncomeByBBoxCached`: hit only when the
entry exists and `now - timestamp < CENSUS_CACHE_TTL`. -/
def censusCacheGet {α : Type} (m : List (CacheEntry α)) (k : String) (now : Nat) :
    Option α :=
  match mapGet m k with
  | some e => if now - e.timestamp < CENSUS_CACHE_TTL then some e.data else none
  | none => none

/-- The cache-write half of `getCensusIncomeByBBoxCached`: `Map.set` first,
then delete the oldest entry if `size > 20`. -/
def censusCacheSet {α : Type} (m : List (CacheEntry α)) (k : String) (d : α) (now : Nat) :
    List (CacheEntry α) :=
  let m1 := mapSet m k d now
  if m1.length > CENSUS_CACHE_CAP then m1.tail else m1

/-- `getCensusIncomeByBBoxCached` (censusService.ts): return the cached data
on a fresh hit, otherwise fetch (`fetched` abstracts `getCensusIncomeByBBox`),
store it, and evict. Returns the data together with the updated cache. -/
def getCensusIncomeByBBoxCached {α : Type} (m : List (CacheEntry α)) (k : String)
    (fetched : α) (now : Nat) : α × List (CacheEntry α) :=
  match censusCacheGet m k now with
  | some d => (d, m)
  | none => (fetched, censusCacheSet m k fetched now)

/-! ## SmartyService: geospatial property resolver

`smartyService.ts`. Addresses and lookup results keep the string fields the
algorithms inspect; the floating-point fields (`lotSizeAcres`,
`marketValue`, `latitude`, `longitude`) are elided since no property here
reads them. JavaScript truthiness of a string field is `≠ ""`. -/

structure USAddress where
  street : String
  city : String
  state : String
  zipCode : String
deriving DecidableEq, Repr

structure PropertyLookupResult where
  ownerName : String
  firstName : String
  lastName : String
  companyName : String
  mailingAddress : USAddress
  propertyAddress : USAddress
  parcelId : String
  propertyType : String
  smartyLookupId : String
deriving DecidableEq, Repr

/-- The credential fields read from the singleton Settings document. -/
structure SmartySettings where
  smartyAuthId : String
  smartyAuthToken : String
deriving DecidableEq, Repr

/-- `SmartyService.isConfigured`: `!!(authId && authToken)` — both credential
strings non-empty. -/
def isConfigured (s : SmartySettings) : Bool :=
  s.smartyAuthId ≠ "" && s.smartyAuthToken ≠ ""

/-- A reverse-geocode candidate address (`SmartyReverseGeoResult.address`). -/
structure GeoAddress where
  street : String
  city : String
  state_abbreviation : String
  zipcode : String
deriving DecidableEq, Repr

/-- `SmartyService.reverseGeocode`: when not configured, warn and return the
empty list without calling the vendor; otherwise one vendor call is made and
any HTTP/network failure (`resp = none`) is absorbed as the empty list.
Returns the candidate list together with the number of vendor calls made. -/
def reverseGeocode (s : SmartySettings) (resp : Option (List GeoAddress)) :
    List GeoAddress × Nat :=
  if isConfigured s then
    match resp with
    | some results => (results, 1)
    | none => ([], 1)
  else
    ([], 0)

/-! ### Ring search (`lookupPropertyByCoordinates`)

A probe is identified by its place in the search pattern: the direct point,
or the ring probe at a given distance (meters) and angle (degrees). The
equirectangular offset arithmetic (`offsetDeg * cos/sin`) only manufactures
the probe's coordinates and is never inspected by the selection logic, so
the vendor pipeline `_reverseAndLookup` (reverse-geocode → validate →
enrichment) is abstracted as an environment `env : ProbePoint →
Option PropertyLookupResult` assigning each probe its outcome; `none`
covers both "no address here" and an absorbed per-probe failure. -/

inductive ProbePoint where
  | direct : ProbePoint
  | ring (distMeters : Nat) (angleDeg : Nat) : ProbePoint
deriving DecidableEq, Repr

/-- The 8 cardinal/intercardinal probe angles, in fixed probe-index order. -/
def angles : List Nat := [0, 45, 90, 135, 180, 225, 270, 315]

/-- The ring distances: `[100, 250, searchRadiusMeters]`. -/
def distances (searchRadiusMeters : Nat) : List Nat :=
  [100, 250, searchRadiusMeters]

/-- `r && r.ownerName`: the probe produced a result with an owner name. -/
def hasOwner : Option PropertyLookupResult → Bool
  | some r => r.ownerName ≠ ""
  | none => false

/-- `r && r.propertyAddress?.street`: the probe produced a result with a
populated property-address street. -/
def hasStreet : Option PropertyLookupResult → Bool
  | some r => r.propertyAddress.street ≠ ""
  | none => false

/-- The 8 probes of one ring, in probe-index order. -/
def ringProbes (d : Nat) : List ProbePoint :=
  angles.map (fun a => ProbePoint.ring d a)

/-- The outcomes of the 8 probes of one ring, in probe-index order. -/
def ringResults (env : ProbePoint → Option PropertyLookupResult) (d : Nat) :
    List (Option PropertyLookupResult) :=
  (ringProbes d).map env

/-- The in-ring acceptance policy, applied after `Promise.all`: the first
result (probe-index order) with an owner name, else the first with a
property-address street, else nothing. -/
def ringPick (results : List (Option PropertyLookupResult)) :
    Option PropertyLookupResult :=
  match results.find? hasOwner with
  | some o => o
  | none =>
    match results.find? hasStreet with
    | some o => o
    | none => none

/-- The `for (const dist of distances)` loop: evaluate rings in order,
stopping at the first ring whose pick is non-empty. Returns the picked
result (if any) and the list of ring probes issued, in order. -/
def ringSearch (env : ProbePoint → Option PropertyLookupResult) :
    List Nat → Option PropertyLookupResult × List ProbePoint
  | [] => (none, [])
  | d :: rest =>
    let probes := ringProbes d
    match ringPick (probes.map env) with
    | some r => (some r, probes)
    | none =>
      let tailRun := ringSearch env rest
      (tailRun.1, probes ++ tailRun.2)

/-- `SmartyService.lookupPropertyByCoordinates`: direct attempt first (fast
path when it has an owner name), then the concentric rings, and finally the
direct result — whatever it was — when every ring exhausts. Returns the
outcome together with every probe issued, in order. -/
def lookupPropertyByCoordinates (env : ProbePoint → Option PropertyLookupResult)
    (searchRadiusMeters : Nat := 500) :
    Option PropertyLookupResult × List ProbePoint :=
  let direct := env ProbePoint.direct
  if hasOwner direct then
    (direct, [ProbePoint.direct])
  else
    let run := ringSearch env (distances searchRadiusMeters)
    match run.1 with
    | some r => (some r, ProbePoint.direct :: run.2)
    | none => (direct, ProbePoint.direct :: run.2)

/-- An HTTP response from the property controller. -/
inductive ApiResponse where
  | ok (data : PropertyLookupResult) : ApiResponse
  | err (code : Nat) (message : String) : ApiResponse
deriving DecidableEq, Repr

/-- `PropertyController.lookupByCoordinates` (the route handler): a 503
"not configured" response before any resolver call when credentials are
absent; otherwise 404 on a null resolution, 200 with the result otherwise.
`resolveOutcome` abstracts `lookupPropertyByCoordinates`'s return value. -/
def lookupByCoordinatesController (s : SmartySettings)
    (resolveOutcome : Option PropertyLookupResult) : ApiResponse :=
  if isConfigured s then
    match resolveOutcome with
    | none => ApiResponse.err 404 "Could not find property at these coordinates"
    | some r => ApiResponse.ok r
  else
    ApiResponse.err 503
      "Smarty API is not configured. Set your Smarty credentials in the Settings panel."

/-! ## Land-use classification (`classifyPropertyFromSmarty`, jobService.ts) -/

/-- Substring occurrence on character lists, by sliding a prefix test. -/
def charsInclude (p : List Char) : List Char → Bool
  | [] => p.isPrefixOf []
  | c :: tl => p.isPrefixOf (c :: tl) || charsInclude p tl

/-- JavaScript `s.includes(pat)`: `pat` occurs as a contiguous substring. -/
def strIncludes (s pat : String) : Bool :=
  charsInclude pat.toList s.toList

/-- JavaScript `s.toLowerCase()`, character by character. -/
def strToLower (s : String) : String :=
  String.mk (s.toList.map Char.toLower)

/-- `classifyPropertyFromSmarty`: keyword matching over the lowercased
free-text property type; a non-empty unmatched text is returned verbatim,
and only a null result or empty text yields "unknown". -/
def classifyPropertyFromSmarty (data : Option PropertyLookupResult) : String :=
  match data with
  | none => "unknown"
  | some d =>
    let propType := strToLower d.propertyType
    if strIncludes propType "commercial" || strIncludes propType "business" ||
        strIncludes propType "office" || strIncludes propType "retail" ||
        strIncludes propType "industrial" then "commercial"
    else if strIncludes propType "residential" || strIncludes propType "single" ||
        strIncludes propType "multi" || strIncludes propType "condo" ||
        strIncludes propType "apartment" || strIncludes propType "family" then "residential"
    else if strIncludes propType "agricultural" || strIncludes propType "farm" then
      "agricultural"
    else if strIncludes propType "vacant" || strIncludes propType "land" then "vacant"
    else if propType ≠ "" then propType
    else "unknown"

/-! ## Job engine (jobService.ts): one job's stored record and the
operations that write it

Timestamps (`createdAt`, `startedAt`, `completedAt`) are elided: no claim
reads them. -/

inductive JStatus where
  | pending
  | running
  | completed
  | failed
  | cancelled
deriving DecidableEq, Repr

structure JobRec where
  status : JStatus
  progress : Nat
  statusMessage : String
  error : Option String
deriving DecidableEq, Repr

/-- `cancelJob`'s write: the `findOne` filter only matches a pending or
running job, so a terminal job is left untouched (`return null`). -/
def applyCancel (j : JobRec) : JobRec :=
  if j.status = JStatus.pending ∨ j.status = JStatus.running then
    { j with status := JStatus.cancelled, statusMessage := "Cancelled by user" }
  else
    j

/-- `updateProgress`: a no-op returning `false` (the stop signal) when the
job has been cancelled; otherwise clamps and persists progress and message,
leaving `status` untouched, and returns `true`. -/
def updateProgress (j : JobRec) (p : Nat) (msg : String) : JobRec × Bool :=
  if j.status = JStatus.cancelled then
    (j, false)
  else
    ({ j with progress := min 100 (max 0 p), statusMessage := msg }, true)

/-- The workflow's terminal `findByIdAndUpdate` write for a successful run:
unconditional — it does not re-check the current status. -/
def completeWrite (j : JobRec) (msg : String) : JobRec :=
  { j with status := JStatus.completed, progress := 100, statusMessage := msg }

/-- `executeJob`'s catch clause: re-read the job, skip the write when it was
cancelled during execution, otherwise record the failure. The re-read and
the write are merged into one step here. -/
def recordFailure (j : JobRec) (msg : String) : JobRec :=
  if j.status = JStatus.cancelled then
    j
  else
    { j with status := JStatus.failed, error := some msg,
             statusMessage := "Failed: " ++ msg }

/-! ### The water-scan workflow as a step list, with an external cancel

`executeWaterScan` performs two `updateProgress` calls and one unconditional
completion write (the bounding-box grid arithmetic in between touches no
job state and is elided). A run is executed against a cancel request that
arrives just before the `cancelAt`-th remaining database step (or after all
of them when `cancelAt` exceeds the step count); a cancel index of `none`
means the job is never cancelled. -/

inductive WStep where
  | update (p : Nat) (msg : String) : WStep
  | complete (msg : String) : WStep
deriving DecidableEq, Repr

/-- The database writes of `executeWaterScan`, in program order. -/
def waterScanSteps : List WStep :=
  [WStep.update 5 "Scanning sub-regions...",
   WStep.update 50 "Prepared scan cells",
   WStep.complete "Ready — sub-regions prepared for scanning"]

/-- Run workflow steps with a cancel arriving before step index `cancelAt`.
An `updateProgress` that observes the cancellation stops the run (the code
`return`s without any terminal write). -/
def runSteps : List WStep → Option Nat → JobRec → JobRec
  | [], none, j => j
  | [], some _, j => applyCancel j
  | s :: rest, c, j =>
    let j1 := if c = some 0 then applyCancel j else j
    let c1 := match c with
      | some 0 => none
      | some (n + 1) => some n
      | none => none
    match s with
    | WStep.update p m =>
      let step := updateProgress j1 p m
      if step.2 then runSteps rest c1 step.1 else step.1
    | WStep.complete m => runSteps rest c1 (completeWrite j1 m)

/-- A freshly promoted job record, as `processNextJob` writes it. -/
def runningInit : JobRec :=
  { status := JStatus.running, progress := 0, statusMessage := "Starting...",
    error := none }

/-! ### The batch-property workflow (`executeBatchPropertyLookup`)

`wb.lat`/`wb.lng` are only forwarded to the resolver, so the per-item
vendor pipeline is abstracted as `env : WaterBody → Except String (Option
PropertyLookupResult)`, an `Except.error` being a thrown lookup error
(caught per item by the `try/catch`). -/

structure WaterBody where
  id : String
deriving DecidableEq, Repr

structure BatchItem where
  success : Bool
  data : Option PropertyLookupResult
  error : Option String
  propertyType : String
deriving DecidableEq, Repr

/-- `Math.round((processed / total) * 90)` on exact rationals. -/
def roundDiv (a b : Nat) : Nat := (2 * a + b) / (2 * b)

/-- The per-item loop: progress update (aborting on observed cancellation),
lookup with per-item catch, classification. Returns the job record, the
accumulated results, and whether the loop ran to completion. -/
def runBatchItems (env : WaterBody → Except String (Option PropertyLookupResult))
    (total : Nat) :
    List WaterBody → Nat → JobRec → List (String × BatchItem) →
    JobRec × List (String × BatchItem) × Bool
  | [], _, j, acc => (j, acc, true)
  | wb :: rest, processed, j, acc =>
    let step := updateProgress j (roundDiv (processed * 90) total + 5)
      ("Looking up property " ++ toString (processed + 1) ++ " of " ++
        toString total ++ "...")
    if step.2 then
      let item :=
        match env wb with
        | Except.ok r =>
          { success := true, data := r, error := none,
            propertyType := classifyPropertyFromSmarty r }
        | Except.error e =>
          { success := false, data := none, error := some e,
            propertyType := "unknown" }
      runBatchItems env total rest (processed + 1) step.1 (acc ++ [(wb.id, item)])
    else
      (step.1, acc, false)

/-- `executeBatchPropertyLookup`: throws (`Except.error`) when `waterBodies`
is missing or empty, otherwise runs the loop and, unless a cancellation was
observed, performs the terminal completion write. -/
def executeBatchPropertyLookup (j : JobRec) (waterBodies : Option (List WaterBody))
    (env : WaterBody → Except String (Option PropertyLookupResult)) :
    Except String JobRec :=
  match waterBodies with
  | none => Except.error "No water bodies provided for property lookup"
  | some [] => Except.error "No water bodies provided for property lookup"
  | some wbs =>
    let run := runBatchItems env wbs.length wbs 0 j []
    if run.2.2 then
      Except.ok (completeWrite run.1
        ("Completed — " ++ toString wbs.length ++ " properties looked up"))
    else
      Except.ok run.1

/-- `executeJob` specialised to a batch-property job: a thrown error is
caught and recorded via the cancelled-checking failure write. -/
def executeJobForBatch (j : JobRec) (waterBodies : Option (List WaterBody))
    (env : WaterBody → Except String (Option PropertyLookupResult)) : JobRec :=
  match executeBatchPropertyLookup j waterBodies env with
  | Except.ok j2 => j2
  | Except.error msg => recordFailure j msg

/-! ## The in-process scheduler (`processNextJob`) as a transition system

`processNextJob` checks `runningCount >= JOB_CONCURRENCY` synchronously and
then promotes a pending job inside an asynchronous `findOneAndUpdate`
callback, which is also where `runningCount` is incremented. The model
therefore splits a scheduling pass into (a) the guard check, merged into
the event that triggers it (`createJob`, or a job finishing), and (b) the
later promotion step; `passes` counts guard-passed passes whose promotion
callback has not yet run. `finish` covers a running job reaching any
terminal status; its decrement and re-check happen synchronously in the
`finally` handler, hence in one step. -/

def JOB_CONCURRENCY : Nat := 2

structure SchedState where
  /-- All job records, in creation (`createdAt`) order. -/
  jobs : List (Nat × JStatus)
  /-- The in-memory `runningCount` counter. -/
  runningCount : Nat
  /-- Guard-passed scheduling passes whose promotion has not yet executed. -/
  passes : Nat
deriving DecidableEq, Repr

/-- Mark the first pending job (oldest — `sort createdAt: 1`) running. -/
def promoteFirstPending : List (Nat × JStatus) → List (Nat × JStatus)
  | [] => []
  | (i, st) :: rest =>
    if st = JStatus.pending then (i, JStatus.running) :: rest
    else (i, st) :: promoteFirstPending rest

/-- Whether some job is pending. -/
def hasPending (jobs : List (Nat × JStatus)) : Bool :=
  jobs.any (fun j => j.2 = JStatus.pending)

/-- Set the status of job `i`. -/
def setStatus (jobs : List (Nat × JStatus)) (i : Nat) (st : JStatus) :
    List (Nat × JStatus) :=
  jobs.map (fun j => if j.1 = i then (j.1, st) else j)

inductive SchedStep : SchedState → SchedState → Prop where
  /-- `createJob`: insert a pending job, then run `processNextJob`'s
  synchronous guard; a pass is queued only when `runningCount` is below the
  limit at that instant. -/
  | submit (s : SchedState) (i : Nat) (hfresh : s.jobs.all (fun j => j.1 ≠ i)) :
    SchedStep s
      { jobs := s.jobs ++ [(i, JStatus.pending)],
        runningCount := s.runningCount,
        passes := if s.runningCount < JOB_CONCURRENCY then s.passes + 1
                  else s.passes }
  /-- A queued pass's `findOneAndUpdate` callback runs and finds a pending
  job: it becomes running and `runningCount` is incremented. -/
  | promote (s : SchedState) (hpass : s.passes ≥ 1)
      (hpending : hasPending s.jobs = true) :
    SchedStep s
      { jobs := promoteFirstPending s.jobs,
        runningCount := s.runningCount + 1,
        passes := s.passes - 1 }
  /-- A queued pass finds no pending job (`if (!job) return`). -/
  | promoteMiss (s : SchedState) (hpass : s.passes ≥ 1)
      (hpending : hasPending s.jobs = false) :
    SchedStep s { s with passes := s.passes - 1 }
  /-- A running job reaches a terminal status; the `finally` handler
  decrements the counter and re-runs the guard synchronously. -/
  | finish (s : SchedState) (i : Nat) (st : JStatus)
      (hrun : (i, JStatus.running) ∈ s.jobs)
      (hterm : st = JStatus.completed ∨ st = JStatus.failed) :
    SchedStep s
      { jobs := setStatus s.jobs i st,
        runningCount := s.runningCount - 1,
        passes := if s.runningCount - 1 < JOB_CONCURRENCY then s.passes + 1
                  else s.passes }

/-- States reachable from the empty scheduler. -/
inductive SchedReach : SchedState → Prop where
  | init : SchedReach { jobs := [], runningCount := 0, passes := 0 }
  | step {s s' : SchedState} : SchedReach s → SchedStep s s' → SchedReach s'

/-- The number of jobs in `running` status. -/
def runningJobs (s : SchedState) : Nat :=
  (s.jobs.filter (fun j => j.2 = JStatus.running)).length

/-! ## Helper lemmas about the cache map model -/

theorem find?_replace {α : Type} (m : List (CacheEntry α)) (k : String) (d : α)
    (t : Nat) (h : m.any (fun e => e.key = k) = true) :
    (m.map (fun e => if e.key = k then (⟨k, d, t⟩ : CacheEntry α) else e)).find?
      (fun e => e.key = k) = some ⟨k, d, t⟩ := by
  induction m with
  | nil => simp at h
  | cons e rest ih =>
    by_cases he : e.key = k
    · simp [he]
    · have hrest : rest.any (fun e => e.key = k) = true := by
        simpa [he] using h
      simpa [he] using ih hrest

/-- `mapSet` of a key that is absent appends the entry. -/
theorem mapSet_fresh {α : Type} (m : List (CacheEntry α)) (k : String) (d : α)
    (t : Nat) (h : mapGet m k = none) : mapSet m k d t = m ++ [⟨k, d, t⟩] := by
  unfold mapSet
  have hfalse : m.any (fun e => e.key = k) = false := by
    rw [List.any_eq_false]
    intro x hx
    have := (List.find?_eq_none.mp h) x hx
    simpa using this
  simp [hfalse]

theorem mapGet_mapSet {α : Type} (m : List (CacheEntry α)) (k : String) (d : α)
    (t : Nat) : mapGet (mapSet m k d t) k = some ⟨k, d, t⟩ := by
  by_cases hany : m.any (fun e => e.key = k) = true
  · unfold mapGet mapSet
    simp only [hany, if_true]
    exact find?_replace m k d t hany
  · have hfalse : m.any (fun e => e.key = k) = false := by
      cases h : m.any (fun e => e.key = k) with
      | false => rfl
      | true => exact absurd h hany
    have hnone : mapGet m k = none := by
      unfold mapGet
      rw [List.find?_eq_none]
      intro x hx
      simpa using List.any_eq_false.mp hfalse x hx
    rw [mapSet_fresh m k d t hnone]
    unfold mapGet at hnone ⊢
    rw [List.find?_append, hnone]
    simp

theorem mapGet_none_tail {α : Type} (m : List (CacheEntry α)) (k : String)
    (h : mapGet m k = none) : mapGet m.tail k = none := by
  unfold mapGet at h ⊢
  rw [List.find?_eq_none] at h ⊢
  intro x hx
  exact h x (List.mem_of_mem_tail hx)

theorem length_mapSet {α : Type} (m : List (CacheEntry α)) (k : String) (d : α)
    (t : Nat) : (mapSet m k d t).length ≤ m.length + 1 := by
  unfold mapSet
  by_cases hany : m.any (fun e => e.key = k) <;> simp [hany]

theorem length_setCachedResult {α : Type} (m : List (CacheEntry α)) (k : String)
    (d : α) (t : Nat) (h : m.length ≤ MAX_CACHE_SIZE) :
    (setCachedResult m k d t).length ≤ MAX_CACHE_SIZE := by
  unfold setCachedResult
  by_cases hfull : m.length ≥ MAX_CACHE_SIZE
  · simp only [hfull, if_true]
    have h1 : m.tail.length ≤ MAX_CACHE_SIZE - 1 := by
      simp only [List.length_tail]; omega
    have := length_mapSet m.tail k d t
    unfold MAX_CACHE_SIZE at *
    omega
  · simp only [hfull, if_false]
    have := length_mapSet m k d t
    unfold MAX_CACHE_SIZE at *
    omega

theorem length_censusCacheSet {α : Type} (m : List (CacheEntry α)) (k : String)
    (d : α) (t : Nat) (h : m.length ≤ CENSUS_CACHE_CAP) :
    (censusCacheSet m k d t).length ≤ CENSUS_CACHE_CAP := by
  unfold censusCacheSet
  have hm1 := length_mapSet m k d t
  by_cases hbig : (mapSet m k d t).length > CENSUS_CACHE_CAP
  · simp only [hbig, if_true]
    simp only [List.length_tail]
    omega
  · simp only [hbig, if_false]
    omega

theorem getCachedResult_setCachedResult {α : Type} (m : List (CacheEntry α))
    (k : String) (d : α) (t now : Nat) :
    getCachedResult (setCachedResult m k d t) k now =
      if now - t < CACHE_TTL then some d else none := by
  unfold getCachedResult setCachedResult
  rw [mapGet_mapSet]

theorem censusCacheGet_censusCacheSet {α : Type} (m : List (CacheEntry α))
    (k : String) (d : α) (t now : Nat) (hlen : m.length ≤ CENSUS_CACHE_CAP) :
    censusCacheGet (censusCacheSet m k d t) k now =
      if now - t < CENSUS_CACHE_TTL then some d else none := by
  unfold censusCacheGet censusCacheSet
  by_cases hany : m.any (fun e => e.key = k) = true
  · have hlen2 : (mapSet m k d t).length = m.length := by
      unfold mapSet; simp [hany]
    have hno : ¬((mapSet m k d t).length > CENSUS_CACHE_CAP) := by omega
    simp only [hno, if_false]
    rw [mapGet_mapSet]
  · have hnone : mapGet m k = none := by
      unfold mapGet
      rw [List.find?_eq_none]
      intro x hx
      cases h : m.any (fun e => e.key = k) with
      | false => simpa using List.any_eq_false.mp h x hx
      | true => exact absurd h hany
    rw [mapSet_fresh m k d t hnone]
    by_cases hfull : (m ++ [(⟨k, d, t⟩ : CacheEntry α)]).length > CENSUS_CACHE_CAP
    · simp only [hfull, if_true]
      have hm : m ≠ [] := by
        intro h
        subst h
        simp [CENSUS_CACHE_CAP] at hfull
      rw [List.tail_append_singleton_of_ne_nil hm]
      have htail : mapGet m.tail k = none := mapGet_none_tail m k hnone
      unfold mapGet at htail ⊢
      rw [List.find?_append, htail]
      simp
    · simp only [hfull, if_false]
      unfold mapGet at hnone ⊢
      rw [List.find?_append, hnone]
      simp

/-- C5: for every cache key, a `get` within the TTL of the `put` returns the
stored value, and a `get` at age ≥ TTL (or with the key absent) misses —
for both the Overpass response cache and the census cache (the census half
under the cache's own capacity invariant, which every reachable census
cache satisfies by C6). -/
theorem cache_ttl_roundtrip (α : Type) :
    (∀ (m : List (CacheEntry α)) (k : String) (d : α) (t now : Nat),
        now - t < CACHE_TTL →
        getCachedResult (setCachedResult m k d t) k now = some d) ∧
    (∀ (m : List (CacheEntry α)) (k : String) (d : α) (t now : Nat),
        CACHE_TTL ≤ now - t →
        getCachedResult (setCachedResult m k d t) k now = none) ∧
    (∀ (m : List (CacheEntry α)) (k : String) (now : Nat),
        mapGet m k = none → getCachedResult m k now = none) ∧
    (∀ (m : List (CacheEntry α)) (k : String) (d : α) (t now : Nat),
        m.length ≤ CENSUS_CACHE_CAP → now - t < CENSUS_CACHE_TTL →
        censusCacheGet (censusCacheSet m k d t) k now = some d) ∧
    (∀ (m : List (CacheEntry α)) (k : String) (d : α) (t now : Nat),
        m.length ≤ CENSUS_CACHE_CAP → CENSUS_CACHE_TTL ≤ now - t →
        censusCacheGet (censusCacheSet m k d t) k now = none) ∧
    (∀ (m : List (CacheEntry α)) (k : String) (now : Nat),
        mapGet m k = none → censusCacheGet m k now = none) := by
  refine ⟨?_, ?_, ?_, ?_, ?_, ?_⟩
  · intro m k d t now h
    rw [getCachedResult_setCachedResult, if_pos h]
  · intro m k d t now h
    rw [getCachedResult_setCachedResult, if_neg (by omega)]
  · intro m k now h
    unfold getCachedResult
    rw [h]
  · intro m k d t now hlen h
    rw [censusCacheGet_censusCacheSet m k d t now hlen, if_pos h]
  · intro m k d t now hlen h
    rw [censusCacheGet_censusCacheSet m k d t now hlen, if_neg (by omega)]
  · intro m k now h
    unfold censusCacheGet
    rw [h]

/-- Witness for C5 at concrete inputs. -/
theorem cache_ttl_roundtrip_witness :
    getCachedResult (setCachedResult ([] : List (CacheEntry Nat)) "a" 7 0) "a" 1000 =
      some 7 ∧
    getCachedResult (setCachedResult ([] : List (CacheEntry Nat)) "a" 7 0) "a" 300000 =
      none ∧
    getCachedResult ([] : List (CacheEntry Nat)) "a" 5 = none ∧
    censusCacheGet (censusCacheSet ([] : List (CacheEntry Nat)) "b" 9 0) "b" 5 =
      some 9 ∧
    censusCacheGet (censusCacheSet ([] : List (CacheEntry Nat)) "b" 9 0) "b" 1800000 =
      none ∧
    censusCacheGet ([] : List (CacheEntry Nat)) "b" 5 = none :=
  ⟨(cache_ttl_roundtrip Nat).1 [] "a" 7 0 1000 (by decide),
   (cache_ttl_roundtrip Nat).2.1 [] "a" 7 0 300000 (by decide),
   (cache_ttl_roundtrip Nat).2.2.1 [] "a" 5 (by decide),
   (cache_ttl_roundtrip Nat).2.2.2.1 [] "b" 9 0 5 (by decide) (by decide),
   (cache_ttl_roundtrip Nat).2.2.2.2.1 [] "b" 9 0 1800000 (by decide) (by decide),
   (cache_ttl_roundtrip Nat).2.2.2.2.2 [] "b" 5 (by decide)⟩

/-- The Overpass cache after a sequence of `put`s starting empty. -/
def applyOverpassPuts {α : Type} (ops : List (String × α × Nat)) :
    List (CacheEntry α) :=
  ops.foldl (fun m op => setCachedResult m op.1 op.2.1 op.2.2) []

/-- The census cache after a sequence of `put`s starting empty. -/
def applyCensusPuts {α : Type} (ops : List (String × α × Nat)) :
    List (CacheEntry α) :=
  ops.foldl (fun m op => censusCacheSet m op.1 op.2.1 op.2.2) []

/-- C6: after any sequence of `put`s the Overpass cache holds at most 50
entries and the census cache at most 20; and a `put` of a fresh key issued
at capacity evicts exactly the oldest entry and appends the new one (the
census cache performs the eviction after the insert, with the same
resulting state). -/
theorem cache_capacity_bound (α : Type) :
    (∀ ops : List (String × α × Nat),
        (applyOverpassPuts ops).length ≤ MAX_CACHE_SIZE) ∧
    (∀ ops : List (String × α × Nat),
        (applyCensusPuts ops).length ≤ CENSUS_CACHE_CAP) ∧
    (∀ (m : List (CacheEntry α)) (k : String) (d : α) (t : Nat),
        m.length = MAX_CACHE_SIZE → mapGet m k = none →
        setCachedResult m k d t = m.tail ++ [⟨k, d, t⟩]) ∧
    (∀ (m : List (CacheEntry α)) (k : String) (d : α) (t : Nat),
        m.length = CENSUS_CACHE_CAP → mapGet m k = none →
        censusCacheSet m k d t = m.tail ++ [⟨k, d, t⟩]) := by
  refine ⟨?_, ?_, ?_, ?_⟩
  · have key : ∀ (ops : List (String × α × Nat)) (m : List (CacheEntry α)),
        m.length ≤ MAX_CACHE_SIZE →
        (ops.foldl (fun m op => setCachedResult m op.1 op.2.1 op.2.2) m).length ≤
          MAX_CACHE_SIZE := by
      intro ops
      induction ops with
      | nil => intro m h; simpa using h
      | cons op rest ih =>
        intro m h
        exact ih _ (length_setCachedResult m op.1 op.2.1 op.2.2 h)
    intro ops
    exact key ops [] (by simp [MAX_CACHE_SIZE])
  · have key : ∀ (ops : List (String × α × Nat)) (m : List (CacheEntry α)),
        m.length ≤ CENSUS_CACHE_CAP →
        (ops.foldl (fun m op => censusCacheSet m op.1 op.2.1 op.2.2) m).length ≤
          CENSUS_CACHE_CAP := by
      intro ops
      induction ops with
      | nil => intro m h; simpa using h
      | cons op rest ih =>
        intro m h
        exact ih _ (length_censusCacheSet m op.1 op.2.1 op.2.2 h)
    intro ops
    exact key ops [] (by simp [CENSUS_CACHE_CAP])
  · intro m k d t hlen hnone
    unfold setCachedResult
    rw [if_pos (by omega : m.length ≥ MAX_CACHE_SIZE)]
    exact mapSet_fresh m.tail k d t (mapGet_none_tail m k hnone)
  · intro m k d t hlen hnone
    unfold censusCacheSet
    rw [mapSet_fresh m k d t hnone]
    have hm : m ≠ [] := by
      intro h
      subst h
      simp [CENSUS_CACHE_CAP] at hlen
    rw [if_pos (by simp [hlen, CENSUS_CACHE_CAP] : (m ++ [(⟨k, d, t⟩ : CacheEntry α)]).length > CENSUS_CACHE_CAP)]
    exact List.tail_append_singleton_of_ne_nil hm

/-- A full (50-entry) Overpass cache used by the C6 witness. -/
def fullOverpassMap : List (CacheEntry Nat) :=
  (List.range MAX_CACHE_SIZE).map (fun i => ⟨toString i, i, 0⟩)

/-- A full (20-entry) census cache used by the C6 witness. -/
def fullCensusMap : List (CacheEntry Nat) :=
  (List.range CENSUS_CACHE_CAP).map (fun i => ⟨toString i, i, 0⟩)

/-- Witness for C6 at concrete inputs. -/
theorem cache_capacity_bound_witness :
    (applyOverpassPuts [("a", 1, 0), ("b", 2, 1)]).length ≤ MAX_CACHE_SIZE ∧
    (applyCensusPuts [("a", 1, 0), ("b", 2, 1)]).length ≤ CENSUS_CACHE_CAP ∧
    setCachedResult fullOverpassMap "fresh" 99 7 =
      fullOverpassMap.tail ++ [⟨"fresh", 99, 7⟩] ∧
    censusCacheSet fullCensusMap "fresh" 99 7 =
      fullCensusMap.tail ++ [⟨"fresh", 99, 7⟩] :=
  ⟨(cache_capacity_bound Nat).1 [("a", 1, 0), ("b", 2, 1)],
   (cache_capacity_bound Nat).2.1 [("a", 1, 0), ("b", 2, 1)],
   (cache_capacity_bound Nat).2.2.1 fullOverpassMap "fresh" 99 7 (by decide) (by decide),
   (cache_capacity_bound Nat).2.2.2 fullCensusMap "fresh" 99 7 (by decide) (by decide)⟩

/-! ## Resolver theorems -/

/-- When every ring's pick is empty, the ring loop finds nothing. -/
theorem ringSearch_exhausted (env : ProbePoint → Option PropertyLookupResult) :
    ∀ ds : List Nat, (∀ d ∈ ds, ringPick (ringResults env d) = none) →
      (ringSearch env ds).1 = none := by
  intro ds
  induction ds with
  | nil => intro _; rfl
  | cons d rest ih =>
    intro h
    unfold ringSearch
    dsimp only
    have hd : ringPick ((ringProbes d).map env) = none := h d (by simp)
    rw [hd]
    simpa using ih (fun x hx => h x (by simp [hx]))

/-- C4: fast path — when the direct attempt yields a result with a
non-empty owner name, the resolver returns it at once and the only probe
issued is the direct one (no ring probes). -/
theorem resolver_fast_path (env : ProbePoint → Option PropertyLookupResult)
    (radius : Nat) (r : PropertyLookupResult)
    (hdir : env ProbePoint.direct = some r) (hown : r.ownerName ≠ "") :
    lookupPropertyByCoordinates env radius = (some r, [ProbePoint.direct]) := by
  unfold lookupPropertyByCoordinates
  rw [hdir]
  simp [hasOwner, hown]

/-- A direct-only environment: an owner match at the exact point, no
address anywhere else. -/
def directOwnerEnv : ProbePoint → Option PropertyLookupResult
  | ProbePoint.direct =>
    some
      { ownerName := "Jane Doe", firstName := "Jane", lastName := "Doe",
        companyName := "",
        mailingAddress := { street := "", city := "", state := "", zipCode := "" },
        propertyAddress :=
          { street := "1 Shore Rd", city := "Hillsdale", state := "UT",
            zipCode := "84000" },
        parcelId := "p-1", propertyType := "Residential", smartyLookupId := "k1" }
  | ProbePoint.ring _ _ => none

/-- Witness for C4 at a concrete environment. -/
theorem resolver_fast_path_witness :
    directOwnerEnv ProbePoint.direct ≠ none ∧
    lookupPropertyByCoordinates directOwnerEnv 500 =
      (directOwnerEnv ProbePoint.direct, [ProbePoint.direct]) :=
  ⟨by decide, resolver_fast_path directOwnerEnv 500 _ rfl (by decide)⟩

/-- C3: the in-ring acceptance policy and early termination. (i) When some
probe of a ring has an owner name, the ring picks the first such result in
fixed probe-index order; (ii) when none has an owner name, it picks the
first result with a populated property-address street (or nothing, moving
to the next ring); (iii) when the direct attempt has no owner name, ring 1
(100 m) yields no usable match, and some ring-2 (250 m) probe has an owner
name, the resolver returns the first ring-2 owner-name result and the
probes issued are exactly the direct point and rings 1 and 2: no
third-ring probe is ever issued. -/
theorem resolver_ring_policy :
    (∀ results : List (Option PropertyLookupResult),
        results.any hasOwner = true →
        ringPick results = (results.find? hasOwner).join) ∧
    (∀ results : List (Option PropertyLookupResult),
        results.any hasOwner = false →
        ringPick results = (results.find? hasStreet).join) ∧
    (∀ (env : ProbePoint → Option PropertyLookupResult) (radius : Nat),
        hasOwner (env ProbePoint.direct) = false →
        ringPick (ringResults env 100) = none →
        (ringResults env 250).any hasOwner = true →
        lookupPropertyByCoordinates env radius =
          (((ringResults env 250).find? hasOwner).join,
           ProbePoint.direct :: (ringProbes 100 ++ ringProbes 250))) := by
  have policyOwner : ∀ results : List (Option PropertyLookupResult),
      results.any hasOwner = true →
      ringPick results = (results.find? hasOwner).join := by
    intro results h
    have hsome : (results.find? hasOwner).isSome := by
      rw [List.find?_isSome]
      exact List.any_eq_true.mp h
    obtain ⟨o, ho⟩ := Option.isSome_iff_exists.mp hsome
    have hpo : hasOwner o = true := List.find?_some ho
    obtain ⟨r, rfl⟩ : ∃ r, o = some r := by
      cases o with
      | none => simp [hasOwner] at hpo
      | some r => exact ⟨r, rfl⟩
    unfold ringPick
    rw [ho]
    simp
  refine ⟨policyOwner, ?_, ?_⟩
  · intro results h
    have hnone : results.find? hasOwner = none := by
      rw [List.find?_eq_none]
      intro x hx
      simpa using List.any_eq_false.mp h x hx
    unfold ringPick
    rw [hnone]
    cases hs : results.find? hasStreet with
    | none => simp
    | some o =>
      have hpo : hasStreet o = true := List.find?_some hs
      obtain ⟨r, rfl⟩ : ∃ r, o = some r := by
        cases o with
        | none => simp [hasStreet] at hpo
        | some r => exact ⟨r, rfl⟩
      simp
  · intro env radius hdir h1 h2
    have hsome : ((ringResults env 250).find? hasOwner).isSome := by
      rw [List.find?_isSome]
      exact List.any_eq_true.mp h2
    obtain ⟨o, ho⟩ := Option.isSome_iff_exists.mp hsome
    have hpo : hasOwner o = true := List.find?_some ho
    obtain ⟨r, rfl⟩ : ∃ r, o = some r := by
      cases o with
      | none => simp [hasOwner] at hpo
      | some r => exact ⟨r, rfl⟩
    have hpick : ringPick (ringResults env 250) = some r := by
      rw [policyOwner (ringResults env 250) h2, ho]
      rfl
    have h1m : ringPick ((ringProbes 100).map env) = none := h1
    have hpickm : ringPick ((ringProbes 250).map env) = some r := hpick
    have hsearch : ringSearch env (distances radius) =
        (some r, ringProbes 100 ++ ringProbes 250) := by
      unfold distances ringSearch
      dsimp only
      rw [h1m]
      dsimp only
      unfold ringSearch
      dsimp only
      rw [hpickm]
    unfold lookupPropertyByCoordinates
    dsimp only
    rw [if_neg (by simp [hdir]), hsearch, ho]
    simp

/-- An environment with no direct owner and a single owner match on the
250 m ring at the 90° probe. -/
def ring2OwnerEnv : ProbePoint → Option PropertyLookupResult
  | ProbePoint.ring 250 90 =>
    some
      { ownerName := "Shore HOA", firstName := "", lastName := "",
        companyName := "Shore HOA",
        mailingAddress := { street := "", city := "", state := "", zipCode := "" },
        propertyAddress :=
          { street := "2 Shore Rd", city := "Hillsdale", state := "UT",
            zipCode := "84000" },
        parcelId := "p-2", propertyType := "Vacant Land", smartyLookupId := "k2" }
  | _ => none

/-- Witness for C3 at a concrete environment. -/
theorem resolver_ring_policy_witness :
    ringPick (ringResults ring2OwnerEnv 250) =
      ((ringResults ring2OwnerEnv 250).find? hasOwner).join ∧
    ringPick (ringResults ring2OwnerEnv 100) =
      ((ringResults ring2OwnerEnv 100).find? hasStreet).join ∧
    lookupPropertyByCoordinates ring2OwnerEnv 500 =
      (((ringResults ring2OwnerEnv 250).find? hasOwner).join,
       ProbePoint.direct :: (ringProbes 100 ++ ringProbes 250)) :=
  ⟨resolver_ring_policy.1 (ringResults ring2OwnerEnv 250) (by decide),
   resolver_ring_policy.2.1 (ringResults ring2OwnerEnv 100) (by decide),
   resolver_ring_policy.2.2 ring2OwnerEnv 500 (by decide) (by decide) (by decide)⟩

/-- An environment in which every reverse-geocode returns no address. -/
def noAddressEnv : ProbePoint → Option PropertyLookupResult :=
  fun _ => none

/-- C1 counterexample: when every reverse-geocode returns no address at
all, the direct attempt itself is `null`, and the resolver returns `null`
(`return direct`), contradicting "it never returns null". -/
theorem resolver_exhausted_null_counterexample :
    (lookupPropertyByCoordinates noAddressEnv 500).1 = none := by
  decide

/-- C1 (amended): when the direct attempt has no owner name and every ring
exhausts without a usable match, the resolver returns exactly the
direct-attempt outcome — the partial record if the direct reverse-geocode
yielded an address, and `null` if it did not; the embedding is a total
function, so no input makes it throw. -/
theorem resolver_exhausted_returns_direct
    (env : ProbePoint → Option PropertyLookupResult) (radius : Nat)
    (hdir : hasOwner (env ProbePoint.direct) = false)
    (hrings : ∀ d ∈ distances radius, ringPick (ringResults env d) = none) :
    (lookupPropertyByCoordinates env radius).1 = env ProbePoint.direct := by
  unfold lookupPropertyByCoordinates
  rw [if_neg (by simp [hdir])]
  have h := ringSearch_exhausted env (distances radius) hrings
  cases hrun : (ringSearch env (distances radius)).1 with
  | none => simp [hrun]
  | some r => rw [hrun] at h; exact absurd h (by simp)

/-- Witness for C1 (amended) at the all-empty environment. -/
theorem resolver_exhausted_returns_direct_witness :
    hasOwner (noAddressEnv ProbePoint.direct) = false ∧
    (lookupPropertyByCoordinates noAddressEnv 500).1 = noAddressEnv ProbePoint.direct :=
  ⟨by decide,
   resolver_exhausted_returns_direct noAddressEnv 500 (by decide)
     (fun d _ => by cases d <;> rfl)⟩

/-! ## Classifier theorems -/

/-- A lookup result whose vendor land-use text matches no keyword list. -/
def mixedUseResult : PropertyLookupResult :=
  { ownerName := "Acme Holdings", firstName := "", lastName := "",
    companyName := "Acme Holdings",
    mailingAddress := { street := "", city := "", state := "", zipCode := "" },
    propertyAddress :=
      { street := "3 Shore Rd", city := "Hillsdale", state := "UT",
        zipCode := "84000" },
    parcelId := "p-3", propertyType := "Mixed Use", smartyLookupId := "k3" }

/-- C8 counterexample: the vendor text "Mixed Use" matches no keyword list,
so the classifier returns the raw lowercased text "mixed use" — a value
outside the closed six-category set (and in particular not "mixed"). -/
theorem classify_closed_set_counterexample :
    classifyPropertyFromSmarty (some mixedUseResult) = "mixed use" ∧
    ("mixed use" ∈
        ["commercial", "residential", "agricultural", "vacant", "mixed",
         "unknown"]) = False := by
  constructor
  · decide
  · simp

/-- C8 (amended): for every input (including null) the classifier returns
one of commercial/residential/agricultural/vacant on a keyword match,
otherwise the raw lowercased property-type text when it is non-empty
(which can lie outside the six-category set, and is never the literal
"mixed"), otherwise "unknown". -/
theorem classify_characterization (data : Option PropertyLookupResult) :
    classifyPropertyFromSmarty data ∈
      ["commercial", "residential", "agricultural", "vacant", "unknown"] ∨
    (∃ d, data = some d ∧
      classifyPropertyFromSmarty data = strToLower d.propertyType ∧
      strToLower d.propertyType ≠ "") := by
  match data with
  | none => left; simp [classifyPropertyFromSmarty]
  | some d =>
    unfold classifyPropertyFromSmarty
    dsimp only
    split
    · left; simp
    · split
      · left; simp
      · split
        · left; simp
        · split
          · left; simp
          · split
            · next hne => right; exact ⟨d, rfl, by simp_all, by simp_all⟩
            · left; simp

/-! ## Configuration (credentials) theorems -/

/-- A candidate address used by the C9 counterexample. -/
def mainStreet : GeoAddress :=
  { street := "1 Main St", city := "Hillsdale", state_abbreviation := "UT",
    zipcode := "84000" }

/-- C9 counterexample: with credentials absent, `reverseGeocode` makes no
vendor call and returns the plain empty list — the very same value an
ordinary "no address here" outcome produces under valid credentials — so
the service reports no distinct "not configured" error to its caller. -/
theorem unconfigured_absorbed_counterexample :
    reverseGeocode ⟨"", ""⟩ (some [mainStreet]) = ([], 0) ∧
    (reverseGeocode ⟨"", ""⟩ (some [mainStreet])).1 =
      (reverseGeocode ⟨"id", "tok"⟩ (some [])).1 := by
  constructor <;> decide

/-- C9 (amended): with credentials absent the service layer attempts no
vendor call and absorbs the condition as the ordinary empty result, while
the distinct 503 "not configured" report is produced by the HTTP
controller, which checks `isConfigured` before ever invoking the
resolver. -/
theorem unconfigured_reported_by_controller (s : SmartySettings)
    (resp : Option (List GeoAddress)) (out : Option PropertyLookupResult)
    (h : isConfigured s = false) :
    reverseGeocode s resp = ([], 0) ∧
    lookupByCoordinatesController s out =
      ApiResponse.err 503
        "Smarty API is not configured. Set your Smarty credentials in the Settings panel." := by
  constructor
  · unfold reverseGeocode
    simp [h]
  · unfold lookupByCoordinatesController
    simp [h]

/-- Witness for C9 (amended) at empty credentials. -/
theorem unconfigured_reported_by_controller_witness :
    isConfigured ⟨"", ""⟩ = false ∧
    reverseGeocode ⟨"", ""⟩ (some [mainStreet]) = ([], 0) ∧
    lookupByCoordinatesController ⟨"", ""⟩ none =
      ApiResponse.err 503
        "Smarty API is not configured. Set your Smarty credentials in the Settings panel." :=
  ⟨by decide,
   (unconfigured_reported_by_controller ⟨"", ""⟩ (some [mainStreet]) none (by decide)).1,
   (unconfigured_reported_by_controller ⟨"", ""⟩ (some [mainStreet]) none (by decide)).2⟩

/-! ## Job status theorems -/

/-- The stored record after `executeWaterScan`'s two progress updates. -/
def afterScanUpdates : JobRec :=
  { status := JStatus.running, progress := 50,
    statusMessage := "Prepared scan cells", error := none }

/-- C2 counterexample: a cancel that lands after the workflow's last
progress update and before its terminal write is overwritten — the
reachable cancelled state is followed by the unconditional completion
write, and the whole run ends with stored status `completed`, a transition
out of the terminal state `cancelled`. -/
theorem cancelled_overwritten_counterexample :
    (applyCancel afterScanUpdates).status = JStatus.cancelled ∧
    (completeWrite (applyCancel afterScanUpdates)
        "Ready — sub-regions prepared for scanning").status = JStatus.completed ∧
    (runSteps waterScanSteps (some 2) runningInit).status = JStatus.completed := by
  refine ⟨by decide, by decide, by decide⟩

/-- C2 (amended): progress updates never change `status`; `cancel` never
fires on a terminal job; a failure record never unseats a cancellation;
and a cancellation that some later progress update observes stops the
workflow with final stored status `cancelled`. (Only a cancel landing
after the last progress check, as in the counterexample, can be
overwritten by the unconditional completion write.) -/
theorem terminal_status_amended :
    (∀ (j : JobRec) (p : Nat) (m : String),
        ((updateProgress j p m).1).status = j.status) ∧
    (∀ j : JobRec,
        j.status = JStatus.completed ∨ j.status = JStatus.failed ∨
          j.status = JStatus.cancelled →
        applyCancel j = j) ∧
    (∀ (j : JobRec) (m : String), j.status = JStatus.cancelled →
        recordFailure j m = j) ∧
    (∀ k : Nat, k ≤ 1 →
        (runSteps waterScanSteps (some k) runningInit).status = JStatus.cancelled) := by
  refine ⟨?_, ?_, ?_, ?_⟩
  · intro j p m
    unfold updateProgress
    by_cases h : j.status = JStatus.cancelled <;> simp [h]
  · intro j h
    unfold applyCancel
    rcases h with h | h | h <;> simp [h]
  · intro j m h
    unfold recordFailure
    simp [h]
  · intro k hk
    have : k = 0 ∨ k = 1 := by omega
    rcases this with rfl | rfl <;> decide

/-- A completed record used by the C2 witness. -/
def completedRec : JobRec :=
  { status := JStatus.completed, progress := 100, statusMessage := "done",
    error := none }

/-- A cancelled record used by the C2 witness. -/
def cancelledRec : JobRec :=
  { status := JStatus.cancelled, progress := 40,
    statusMessage := "Cancelled by user", error := none }

/-- Witness for C2 (amended) at concrete records. -/
theorem terminal_status_amended_witness :
    ((updateProgress runningInit 5 "step").1).status = runningInit.status ∧
    applyCancel completedRec = completedRec ∧
    recordFailure cancelledRec "boom" = cancelledRec ∧
    (runSteps waterScanSteps (some 0) runningInit).status = JStatus.cancelled :=
  ⟨terminal_status_amended.1 runningInit 5 "step",
   terminal_status_amended.2.1 completedRec (Or.inl rfl),
   terminal_status_amended.2.2.1 cancelledRec "boom" rfl,
   terminal_status_amended.2.2.2 0 (by decide)⟩

/-- C10: a batch-property job whose `waterBodies` parameter is missing or
empty throws, and the catch clause records terminal status `failed` with
the exact error message — never `completed`; the embedding is total, so no
input crashes it. -/
theorem empty_batch_fails (env : WaterBody → Except String (Option PropertyLookupResult))
    (j : JobRec) (wbs : Option (List WaterBody))
    (hj : j.status = JStatus.running) (hwb : wbs = none ∨ wbs = some []) :
    (executeJobForBatch j wbs env).status = JStatus.failed ∧
    (executeJobForBatch j wbs env).error =
      some "No water bodies provided for property lookup" := by
  have hne : ¬(j.status = JStatus.cancelled) := by rw [hj]; intro h; cases h
  rcases hwb with rfl | rfl <;>
    · unfold executeJobForBatch executeBatchPropertyLookup recordFailure
      simp [hne]

/-- Witness for C10 at concrete inputs. -/
theorem empty_batch_fails_witness :
    runningInit.status = JStatus.running ∧
    (executeJobForBatch runningInit none (fun _ => Except.ok none)).status =
      JStatus.failed ∧
    (executeJobForBatch runningInit none (fun _ => Except.ok none)).error =
      some "No water bodies provided for property lookup" :=
  ⟨rfl,
   (empty_batch_fails (fun _ => Except.ok none) runningInit none rfl (Or.inl rfl)).1,
   (empty_batch_fails (fun _ => Except.ok none) runningInit none rfl (Or.inl rfl)).2⟩

/-! ## Scheduler theorems -/

/-- C7: the concurrency bound is violated by a reachable interleaving.
With one job running, two `createJob` calls each run `processNextJob`'s
synchronous guard before either asynchronous promotion callback has
incremented `runningCount`: both guards read `runningCount = 1 < 2`, both
promotions then run, and the scheduler reaches a state with **three** jobs
in `running` status under `JOB_CONCURRENCY = 2`. -/
theorem scheduler_concurrency_violation :
    SchedReach
      { jobs := [(1, JStatus.running), (2, JStatus.running), (3, JStatus.running)],
        runningCount := 3, passes := 0 } ∧
    runningJobs
      { jobs := [(1, JStatus.running), (2, JStatus.running), (3, JStatus.running)],
        runningCount := 3, passes := 0 } = 3 ∧
    JOB_CONCURRENCY = 2 := by
  refine ⟨?_, by decide, by decide⟩
  have h0 : SchedReach { jobs := [], runningCount := 0, passes := 0 } :=
    SchedReach.init
  have h1 := SchedReach.step h0 (SchedStep.submit _ 1 (by decide))
  have h2 := SchedReach.step h1 (SchedStep.promote _ (by decide) (by decide))
  have h3 := SchedReach.step h2 (SchedStep.submit _ 2 (by decide))
  have h4 := SchedReach.step h3 (SchedStep.submit _ 3 (by decide))
  have h5 := SchedReach.step h4 (SchedStep.promote _ (by decide) (by decide))
  have h6 := SchedReach.step h5 (SchedStep.promote _ (by decide) (by decide))
  simpa [promoteFirstPending, JOB_CONCURRENCY] using h6

end PondFinder
